import Mathlib

/-!
Verification of the ollama-proxy server (src/server.js and the legacy
variant src/unnamed/part_000) against its specification.

The JavaScript source is shallowly embedded: JSON bodies are association
lists of string keys and `JVal` values, the object-spread merge used by
`proxyHandler` is `mergeObj`, and each handler becomes a pure Lean
function over an explicit model of the inbound request and the backend's
observable behaviour.
-/

namespace OllamaProxy

/-- Model of a JSON value as produced by the `express.json()` body parser.
JavaScript numbers are modelled as rationals. -/
inductive JVal where
  | null
  | bool (b : Bool)
  | num (q : ℚ)
  | str (s : String)
  | arr (items : List JVal)
  | obj (fields : List (String × JVal))

/-- A JavaScript object: an association list of key/value pairs. -/
abbrev JObj := List (String × JVal)

/-- The list of keys of an object, in order. -/
def keys (o : JObj) : List String := o.map Prod.fst

/-- Property read `o[k]`: the value at the first occurrence of key `k`. -/
def jGet : JObj → String → Option JVal
  | [], _ => none
  | p :: t, k => if p.1 = k then some p.2 else jGet t k

/-- Model of `o.hasOwnProperty(k)` (JSON bodies never store `undefined`). -/
def hasKey (o : JObj) (k : String) : Bool := (jGet o k).isSome

/-- Property write `o[k] = v`: overwrite the entry for `k` in place, or
append a fresh entry when the key is absent (JavaScript insertion order). -/
def setKey (o : JObj) (k : String) (v : JVal) : JObj :=
  if hasKey o k then o.map (fun p => if p.1 = k then (k, v) else p)
  else o ++ [(k, v)]

/-- Object-spread merge `\x7b...a, ...b\x7d`: the entries of `b` are written
onto `a` in order, so keys of `b` win and new keys are appended. -/
def mergeObj : JObj → JObj → JObj
  | a, [] => a
  | a, p :: t => mergeObj (setKey a p.1 p.2) t

/-! ### Configuration constants (src/server.js lines 6-9) -/

def OLLAMA_URL : String := "http://localhost:11434"

def MODEL_NAME : String := "mistral:7b"

/-- Performance optimization parameters (src/server.js lines 24-36). -/
def getOptimizedParams : JObj :=
  [ ("num_ctx", JVal.num 4096)
  , ("num_batch", JVal.num 512)
  , ("num_gpu", JVal.num (-1))
  , ("main_gpu", JVal.num 0)
  , ("use_mmap", JVal.bool true)
  , ("num_thread", JVal.num 8)
  , ("temperature", JVal.num (7/10))
  , ("top_k", JVal.num 40)
  , ("top_p", JVal.num (9/10))
  , ("repeat_penalty", JVal.num (11/10))
  , ("penalize_newline", JVal.bool false) ]

/-- JavaScript truthiness of a JSON value (`NaN` is not representable). -/
def truthy : JVal → Bool
  | .null => false
  | .bool b => b
  | .num q => if q = 0 then false else true
  | .str s => if s = "" then false else true
  | .arr _ => true
  | .obj _ => true

/-- Own enumerable properties contributed by spreading a value into an
object literal: objects give their fields, arrays and strings give
index-keyed entries, primitives give nothing. -/
def spreadFields : JVal → JObj
  | .obj fs => fs
  | .arr items => items.enum.map (fun p => (toString p.1, p.2))
  | .str s => s.data.enum.map (fun p => (toString p.1, JVal.str (String.singleton p.2)))
  | _ => []

/-- Whether `payload.stream` is strictly the boolean `true`
(the guard `payload.hasOwnProperty('stream') && payload.stream === true`,
src/server.js line 129). -/
def streamIsTrue (p : JObj) : Bool :=
  match jGet p "stream" with
  | some (JVal.bool true) => true
  | _ => false

/-- The stream-forcing step (src/server.js lines 129-131): write
`payload.stream = false` unless `payload.stream` is strictly `true`. -/
def forcedStream (p : JObj) : JObj :=
  if streamIsTrue p then p else setKey p "stream" (JVal.bool false)

/-- The entries spread from `payload.options || \x7b\x7d` (line 139): nothing
when `options` is absent or falsy, its own enumerable properties
otherwise. -/
def userOptsSpread (p : JObj) : JObj :=
  match jGet p "options" with
  | none => []
  | some v => if truthy v then spreadFields v else []

/-- Body rewrite applied to POST generate/chat payloads
(src/server.js lines 127-141): force `stream` to `false` unless it is
strictly `true`, then set `options` to the spread merge
`\x7b...getOptimizedParams(), ...(payload.options || \x7b\x7d)\x7d`. -/
def augmentBody (p : JObj) : JObj :=
  setKey (forcedStream p) "options"
    (JVal.obj (mergeObj getOptimizedParams (userOptsSpread (forcedStream p))))

/-- Substring test modelling JavaScript `String.prototype.includes`. -/
def containsSub (s pat : String) : Bool :=
  s.data.tails.any (fun t => pat.data.isPrefixOf t)

/-- The path test `req.path.includes('/generate') || req.path.includes('/chat')`
(src/server.js line 127). -/
def isGenerateOrChat (p : String) : Bool :=
  containsSub p "/generate" || containsSub p "/chat"

/-- The payload transformation of `proxyHandler` (src/server.js lines
126-141): only POST requests to generate/chat paths are rewritten. -/
def transformPayload (method p : String) (payload : JObj) : JObj :=
  if method = "POST" ∧ isGenerateOrChat p = true then augmentBody payload
  else payload

/-! ### Request model and forwarding (src/server.js lines 121-177) -/

/-- An inbound HTTP request as seen by an Express handler.  `path` is
Express's `req.path`, i.e. the pathname of the request URL with the query
string excluded; `query` is the raw query string (`""` when absent). -/
structure InboundReq where
  method : String
  path : String
  query : String
  authorization : Option String
  body : Option JObj

/-- The full path-with-query the caller sent, for comparison with the
forwarded target URL. -/
def originalUrl (r : InboundReq) : String :=
  if r.query = "" then r.path else r.path ++ "?" ++ r.query

/-- Line 124: `let payload = req.method === 'GET' ? \x7b\x7d : (req.body || \x7b\x7d)`. -/
def requestPayload (r : InboundReq) : JObj :=
  if r.method = "GET" then [] else r.body.getD []

/-- The payload after the generate/chat rewrite of lines 126-141. -/
def effectivePayload (r : InboundReq) : JObj :=
  transformPayload r.method r.path (requestPayload r)

/-- Truthiness of `payload.stream` (line 165: `if (payload.stream)`). -/
def payloadStreamTruthy (p : JObj) : Bool :=
  match jGet p "stream" with
  | none => false
  | some v => truthy v

/-- The outbound axios request built by `proxyHandler`. -/
structure OutboundReq where
  method : String
  url : String
  contentType : String
  data : Option JObj
  streamingMode : Bool

/-- Construction of the axios config (lines 149-167): the URL is
`OLLAMA_URL` concatenated with `req.path` (so the query string is not
carried over), the Content-Type header is always JSON, and the payload is
attached for every method other than GET and HEAD. -/
def buildOutbound (r : InboundReq) : OutboundReq :=
  let payload := effectivePayload r
  { method := r.method
  , url := OLLAMA_URL ++ r.path
  , contentType := "application/json"
  , data := if r.method ≠ "GET" ∧ r.method ≠ "HEAD" then some payload else none
  , streamingMode := payloadStreamTruthy payload }

/-! ### Authentication gate (src/server.js lines 15-21) -/

/-- An HTTP response produced by the proxy. -/
structure Response where
  status : Nat
  body : JVal

/-- The 401 payload of the `validateToken` middleware. -/
def unauthorizedResponse : Response :=
  ⟨401, JVal.obj [("error", JVal.str "Unauthorized")]⟩

/-- JavaScript falsiness of the `authorization` header value
(`!auth` on line 17: the header is missing or the empty string). -/
def strFalsy : Option String → Bool
  | none => true
  | some a => if a = "" then true else false

/-- The middleware body of lines 16-20: reject with 401 when the header is
falsy or differs from the literal string `Bearer <token>`, otherwise fall
through to the route handler (`next()`), returning `none`. -/
def validateToken (token : String) (auth : Option String) : Option Response :=
  if strFalsy auth = true ∨ auth ≠ some ("Bearer " ++ token) then
    some unauthorizedResponse
  else none

/-- Outcome of dispatching a protected route: either the middleware
rejected the request, or `proxyHandler` was invoked on the request. -/
inductive Dispatch where
  | rejected (resp : Response)
  | handled (r : InboundReq)

/-- A protected route `app.<method>(path, validateToken, proxyHandler)`:
the middleware answers first; only when it calls `next()` does the proxy
handler run, and only the proxy handler contacts the backend. -/
def dispatchProtected (token : String) (r : InboundReq) : Dispatch :=
  match validateToken token r.authorization with
  | some resp => Dispatch.rejected resp
  | none => Dispatch.handled r

/-- Number of backend HTTP attempts each dispatch outcome performs: a
rejected request never reaches `proxyHandler`, a handled one performs the
single `await axios(axiosConfig)` of line 169. -/
def backendCallsOf : Dispatch → Nat
  | Dispatch.rejected _ => 0
  | Dispatch.handled _ => 1

/-! ### Failure mapping of the proxy (src/server.js lines 169-198) -/

/-- Observable outcome of the single outbound axios call: a 2xx success
with a JSON body, a non-2xx response (axios rejects with
`error.response` set), a refused connection (`error.code ===
'ECONNREFUSED'`), or any other failure carrying its message. -/
inductive BackendResult where
  | success (status : Nat) (data : JVal)
  | httpError (status : Nat) (data : JVal)
  | connRefused
  | otherFailure (message : String)

/-- The response `proxyHandler` sends for one backend outcome: success is
re-emitted with `res.json` (status 200), a backend error status and body
are propagated verbatim, a refused connection gives the structured 503,
and anything else gives a 500 carrying the failure message
(lines 176 and 179-198). -/
def handleBackendResult : BackendResult → Response
  | BackendResult.success _ d => ⟨200, d⟩
  | BackendResult.httpError s d => ⟨s, d⟩
  | BackendResult.connRefused =>
      ⟨503, JVal.obj
        [ ("error", JVal.str "Ollama service unavailable")
        , ("message", JVal.str "Make sure Ollama is running on localhost:11434") ]⟩
  | BackendResult.otherFailure msg =>
      ⟨500, JVal.obj
        [ ("error", JVal.str "Internal server error")
        , ("message", JVal.str msg) ]⟩

/-- One run of the try/catch body of `proxyHandler` against an oracle
giving the outcome of each potential backend attempt in order.  The code
performs exactly one `await axios(...)` and never retries, so only
attempt `0` is consulted and the attempt count is `1`. -/
def runProxy (oracle : Nat → BackendResult) : Response × Nat :=
  (handleBackendResult (oracle 0), 1)

/-! ### Warmup and keepalive (src/server.js lines 39-118, 247-273) -/

/-- Observable behaviour of the backend during startup: whether the
`/api/version` probe succeeds, whether the `/api/tags` listing succeeds
and which model names it returns, and whether the warmup generation
succeeds. -/
structure BackendEnv where
  versionOk : Bool
  tagsOk : Bool
  tags : List String
  warmupGenOk : Bool

/-- The model-presence check of lines 49-51: some listed name equals
`MODEL_NAME` or starts with `MODEL_NAME` followed by `:`. -/
def modelExists (models : List String) : Bool :=
  models.any (fun m => m = MODEL_NAME || (MODEL_NAME ++ ":").data.isPrefixOf m.data)

/-- The `warmupModel` function (lines 39-95) as a function of the backend
environment: it returns `false` as soon as the version probe fails, the
tags listing fails, or the model is absent; otherwise it reports the
outcome of the warmup generation. -/
def warmupModel (env : BackendEnv) : Bool :=
  if env.versionOk = false then false
  else if env.tagsOk = false then false
  else if modelExists env.tags = false then false
  else env.warmupGenOk

/-- Observable server state right after `startServer` (lines 247-273):
the Express server is listening unconditionally, and the keepalive timer
was started exactly when warmup succeeded. -/
structure ServerState where
  listening : Bool
  keepaliveActive : Bool

/-- The startup sequence: `app.listen` runs first, then warmup is
attempted, and `startKeepalive()` is called only on success. -/
def startServer (env : BackendEnv) : ServerState :=
  { listening := true, keepaliveActive := warmupModel env }

/-- The body sent by every keepalive ping (lines 103-112). -/
def keepalivePayload : JObj :=
  [ ("model", JVal.str MODEL_NAME)
  , ("prompt", JVal.str "ping")
  , ("stream", JVal.bool false)
  , ("options", JVal.obj (mergeObj getOptimizedParams [("max_tokens", JVal.num 1)])) ]

/-- State of the keepalive loop: whether the interval timer is still
scheduled, whether the process has crashed, and the bodies of the
generation requests issued so far. -/
structure KeepaliveState where
  timerActive : Bool
  crashed : Bool
  sent : List JObj

/-- One `setInterval` tick (lines 101-117): the callback issues the
minimal generation request and catches every failure, so the tick neither
clears the timer nor throws, whatever the ping outcome was. -/
def keepaliveTick (st : KeepaliveState) (_pingOk : Bool) : KeepaliveState :=
  { timerActive := st.timerActive
  , crashed := st.crashed
  , sent := st.sent ++ [keepalivePayload] }

/-- The keepalive loop run over a finite prefix of tick outcomes,
starting from the state `startKeepalive` establishes. -/
def runKeepalive (outcomes : List Bool) : KeepaliveState :=
  outcomes.foldl keepaliveTick ⟨true, false, []⟩

/-! ### Health endpoints (src/server.js lines 219-244 and
src/unnamed/part_000 lines 136-142) -/

/-- The legacy `/health` handler (part_000 lines 136-142) paired with the
number of backend requests it performs: it unconditionally answers 200
with exactly the status, timestamp and backend URL, touching the backend
zero times. -/
def legacyHealth (now : String) : Response × Nat :=
  (⟨200, JVal.obj
      [ ("status", JVal.str "healthy")
      , ("timestamp", JVal.str now)
      , ("ollama_url", JVal.str OLLAMA_URL) ]⟩, 0)

/-- Backend behaviour observed by the model-aware `/health` handler:
outcome of the version probe, the version string, outcome of the
`/api/ps` probe, the loaded model names, and the message of the error
thrown on a failed probe. -/
structure HealthEnv where
  versionOk : Bool
  version : String
  psOk : Bool
  psModels : List String
  errMsg : String

/-- The 503 payload of the model-aware handler's catch block. -/
def unhealthyBody (now msg : String) : JVal :=
  JVal.obj
    [ ("status", JVal.str "unhealthy")
    , ("timestamp", JVal.str now)
    , ("error", JVal.str msg) ]

/-- The model-aware `/health` handler (src/server.js lines 219-244)
paired with its backend request count: it probes `/api/version`, then
`/api/ps`, answering 503 with an error field when either probe throws,
and otherwise 200 with the version and the model-loaded flag. -/
def modelAwareHealth (env : HealthEnv) (now : String) : Response × Nat :=
  if env.versionOk = false then (⟨503, unhealthyBody now env.errMsg⟩, 1)
  else if env.psOk = false then (⟨503, unhealthyBody now env.errMsg⟩, 2)
  else
    (⟨200, JVal.obj
        [ ("status", JVal.str "healthy")
        , ("timestamp", JVal.str now)
        , ("ollama_url", JVal.str OLLAMA_URL)
        , ("ollama_version", JVal.str env.version)
        , ("model_loaded", JVal.bool (modelExists env.psModels))
        , ("model_name", JVal.str MODEL_NAME) ]⟩, 2)

/-! ### Lemmas about the object operations -/

/-- First-of-two choice on optional values, the shape of `jGet` on an
appended list. -/
def orO : Option JVal → Option JVal → Option JVal
  | some v, _ => some v
  | none, y => y

@[simp] theorem orO_some (v : JVal) (y : Option JVal) : orO (some v) y = some v := rfl

@[simp] theorem orO_none (y : Option JVal) : orO none y = y := rfl

theorem orO_none_right (x : Option JVal) : orO x none = x := by cases x <;> rfl

@[simp] theorem jGet_nil (k : String) : jGet [] k = none := rfl

@[simp] theorem jGet_cons (p : String × JVal) (t : JObj) (k : String) :
    jGet (p :: t) k = if p.1 = k then some p.2 else jGet t k := rfl

theorem jGet_append (o₁ o₂ : JObj) (k : String) :
    jGet (o₁ ++ o₂) k = orO (jGet o₁ k) (jGet o₂ k) := by
  induction o₁ with
  | nil => simp
  | cons p t ih => by_cases h : p.1 = k <;> simp [h, ih]

@[simp] theorem keys_nil : keys [] = [] := rfl

@[simp] theorem keys_cons (p : String × JVal) (t : JObj) :
    keys (p :: t) = p.1 :: keys t := rfl

theorem keys_append (o₁ o₂ : JObj) : keys (o₁ ++ o₂) = keys o₁ ++ keys o₂ := by
  simp [keys]

theorem jGet_eq_none_iff (o : JObj) (k : String) : jGet o k = none ↔ k ∉ keys o := by
  induction o with
  | nil => simp
  | cons p t ih =>
    by_cases h : p.1 = k
    · subst h; simp
    · simp [h, ih, Ne.symm h]

theorem hasKey_iff (o : JObj) (k : String) : hasKey o k = true ↔ k ∈ keys o := by
  rw [hasKey, Option.isSome_iff_ne_none, ne_eq, jGet_eq_none_iff]
  exact not_not

theorem keys_map_replace (o : JObj) (k : String) (v : JVal) :
    keys (o.map (fun p => if p.1 = k then (k, v) else p)) = keys o := by
  induction o with
  | nil => rfl
  | cons p t ih => by_cases h : p.1 = k <;> simp [h, ih]

theorem jGet_setKey_self (o : JObj) (k : String) (v : JVal) :
    jGet (setKey o k v) k = some v := by
  unfold setKey
  by_cases h : hasKey o k
  · have hm : k ∈ keys o := (hasKey_iff o k).mp h
    rw [if_pos h]
    clear h
    induction o with
    | nil => simp at hm
    | cons p t ih =>
      by_cases hp : p.1 = k
      · simp [hp]
      · have : k ∈ keys t := by
          rcases (by simpa using hm) with h1 | h1
          · exact absurd h1.symm hp
          · exact h1
        simp [hp, ih this]
  · rw [if_neg h, jGet_append]
    have : jGet o k = none := by
      rw [jGet_eq_none_iff]
      intro hm
      exact h ((hasKey_iff o k).mpr hm)
    simp [this]

theorem jGet_setKey_ne (o : JObj) (k : String) (v : JVal) (q : String) (h : q ≠ k) :
    jGet (setKey o k v) q = jGet o q := by
  unfold setKey
  by_cases hk : hasKey o k
  · rw [if_pos hk]
    clear hk
    induction o with
    | nil => rfl
    | cons p t ih =>
      by_cases hp : p.1 = k
      · have h1 : ¬(k = q) := fun hh => h hh.symm
        have h2 : ¬(p.1 = q) := fun hh => h1 (hp ▸ hh)
        simp [hp, h1, h2, ih]
      · simp [hp, ih]
  · rw [if_neg hk, jGet_append]
    have h1 : jGet [(k, v)] q = none := by
      rw [jGet_cons, if_neg (fun hh : k = q => h hh.symm)]
      rfl
    rw [h1, orO_none_right]

theorem keys_setKey (o : JObj) (k : String) (v : JVal) :
    keys (setKey o k v) = if hasKey o k then keys o else keys o ++ [k] := by
  unfold setKey
  by_cases h : hasKey o k
  · simp [h, keys_map_replace]
  · simp [h, keys_append]

theorem keysNodup_setKey (o : JObj) (k : String) (v : JVal) (h : (keys o).Nodup) :
    (keys (setKey o k v)).Nodup := by
  rw [keys_setKey]
  by_cases hk : hasKey o k
  · simpa [hk] using h
  · have hko : k ∉ keys o := fun hm => hk ((hasKey_iff o k).mpr hm)
    have hap : (keys o ++ [k]).Nodup := by
      refine List.Nodup.append h (List.nodup_singleton k) ?_
      intro a ha hb
      rw [List.mem_singleton] at hb
      exact hko (hb ▸ ha)
    simpa [hk] using hap

theorem hasKey_setKey_self (o : JObj) (k : String) (v : JVal) :
    hasKey (setKey o k v) k = true := by
  simp [hasKey, jGet_setKey_self]

theorem hasKey_setKey_ne (o : JObj) (k : String) (v : JVal) (q : String) (h : q ≠ k) :
    hasKey (setKey o k v) q = hasKey o q := by
  simp [hasKey, jGet_setKey_ne o k v q h]

@[simp] theorem mergeObj_nil (a : JObj) : mergeObj a [] = a := rfl

@[simp] theorem mergeObj_cons (a : JObj) (p : String × JVal) (t : JObj) :
    mergeObj a (p :: t) = mergeObj (setKey a p.1 p.2) t := rfl

theorem jGet_mergeObj (b : JObj) : ∀ (a : JObj) (k : String),
    jGet (mergeObj a b) k = orO (jGet b.reverse k) (jGet a k) := by
  induction b with
  | nil => intro a k; simp
  | cons p t ih =>
    intro a k
    rw [mergeObj_cons, ih, List.reverse_cons, jGet_append]
    cases ht : jGet t.reverse k with
    | some w => simp only [ht, orO_some]
    | none =>
      simp only [ht, orO_none]
      by_cases h : p.1 = k
      · rw [jGet_cons, if_pos h, ← h, jGet_setKey_self, orO_some]
      · rw [jGet_cons, if_neg h, jGet_nil, orO_none,
          jGet_setKey_ne a p.1 p.2 k (fun hh => h hh.symm)]

theorem jGet_reverse_of_nodup (o : JObj) (k : String) (h : (keys o).Nodup) :
    jGet o.reverse k = jGet o k := by
  induction o with
  | nil => rfl
  | cons p t ih =>
    have hnc := List.nodup_cons.mp (by simpa using h)
    rw [List.reverse_cons, jGet_append]
    by_cases hk : p.1 = k
    · subst hk
      have : jGet t.reverse p.1 = none := by
        rw [jGet_eq_none_iff]
        simpa [keys, List.map_reverse] using hnc.1
      simp [this]
    · simp [hk, ih hnc.2, orO_none_right]

theorem keysNodup_mergeObj (b : JObj) : ∀ (a : JObj), (keys a).Nodup →
    (keys (mergeObj a b)).Nodup := by
  induction b with
  | nil => intro a h; simpa using h
  | cons p t ih => intro a h; exact ih _ (keysNodup_setKey a p.1 p.2 h)

/-- The keys a spread merge appends to its left argument, computed from
the key lists alone. -/
def extraK (ks : List String) : List String → List String
  | [] => []
  | k :: t => if k ∈ ks then extraK ks t else k :: extraK (ks ++ [k]) t

theorem keys_mergeObj (b : JObj) : ∀ (a : JObj),
    keys (mergeObj a b) = keys a ++ extraK (keys a) (keys b) := by
  induction b with
  | nil => intro a; simp [extraK]
  | cons p t ih =>
    intro a
    rw [mergeObj_cons, ih, keys_setKey]
    by_cases h : hasKey a p.1
    · have hm : p.1 ∈ keys a := (hasKey_iff a p.1).mp h
      simp only [keys] at hm
      simp [h, extraK, hm, keys]
    · have hm : p.1 ∉ keys a := fun hmm => h ((hasKey_iff a p.1).mpr hmm)
      simp only [keys] at hm
      simp [h, extraK, hm, keys]

theorem extraK_nodup_disjoint (l : List String) : ∀ ks : List String,
    (extraK ks l).Nodup ∧ ∀ x ∈ extraK ks l, x ∉ ks := by
  induction l with
  | nil => intro ks; simp [extraK]
  | cons k t ih =>
    intro ks
    by_cases h : k ∈ ks
    · simpa [extraK, h] using ih ks
    · have ih2 := ih (ks ++ [k])
      refine ⟨?_, ?_⟩
      · rw [extraK, if_neg h, List.nodup_cons]
        refine ⟨fun hk => ?_, ih2.1⟩
        exact ih2.2 k hk (by simp)
      · intro x hx
        rw [extraK, if_neg h] at hx
        rcases List.mem_cons.mp hx with h1 | h1
        · exact h1 ▸ h
        · intro hxks
          exact ih2.2 x h1 (by simp [hxks])

theorem extraK_append_covered (ks l₂ : List String) : ∀ l₁ : List String,
    (∀ x ∈ l₁, x ∈ ks) → extraK ks (l₁ ++ l₂) = extraK ks l₂ := by
  intro l₁
  induction l₁ with
  | nil => intro _; rfl
  | cons k t ih =>
    intro h
    have hk : k ∈ ks := h k (by simp)
    rw [List.cons_append, extraK, if_pos hk]
    exact ih (fun x hx => h x (by simp [hx]))

theorem extraK_of_disjoint (e : List String) : ∀ ks : List String,
    e.Nodup → (∀ x ∈ e, x ∉ ks) → extraK ks e = e := by
  induction e with
  | nil => intro ks _ _; rfl
  | cons k t ih =>
    intro ks hnd hdisj
    have hk : k ∉ ks := hdisj k (by simp)
    have hnc := List.nodup_cons.mp hnd
    rw [extraK, if_neg hk]
    congr 1
    refine ih (ks ++ [k]) hnc.2 ?_
    intro x hx
    simp only [List.mem_append, List.mem_singleton]
    rintro (hxs | rfl)
    · exact hdisj x (by simp [hx]) hxs
    · exact hnc.1 hx

theorem jobj_ext : ∀ o₁ o₂ : JObj, keys o₁ = keys o₂ → (keys o₁).Nodup →
    (∀ k, jGet o₁ k = jGet o₂ k) → o₁ = o₂ := by
  intro o₁
  induction o₁ with
  | nil =>
    intro o₂ hk _ _
    cases o₂ with
    | nil => rfl
    | cons q t₂ => simp [keys] at hk
  | cons p t ih =>
    intro o₂ hk hnd hget
    cases o₂ with
    | nil => simp [keys] at hk
    | cons q t₂ =>
      rw [keys_cons, keys_cons] at hk
      injection hk with hk1 hk2
      have hnc := List.nodup_cons.mp (by simpa using hnd)
      have hv : p.2 = q.2 := by
        have h := hget p.1
        rw [jGet_cons, jGet_cons, if_pos rfl, if_pos hk1.symm] at h
        exact Option.some.inj h
      have ht : t = t₂ := by
        refine ih t₂ hk2 hnc.2 ?_
        intro k
        by_cases hkp : k = p.1
        · have h1 : jGet t k = none :=
            (jGet_eq_none_iff t k).mpr (hkp.symm ▸ hnc.1)
          have h2 : jGet t₂ k = none :=
            (jGet_eq_none_iff t₂ k).mpr (hk2 ▸ hkp.symm ▸ hnc.1)
          rw [h1, h2]
        · have h := hget k
          rw [jGet_cons, jGet_cons, if_neg (fun hh => hkp hh.symm),
            if_neg (fun hh => hkp (hk1 ▸ hh.symm))] at h
          exact h
      calc p :: t = (p.1, p.2) :: t := rfl
        _ = (q.1, q.2) :: t₂ := by rw [hk1, hv, ht]
        _ = q :: t₂ := rfl

theorem keys_sub_mergeObj (b a : JObj) : keys a ⊆ keys (mergeObj a b) := by
  rw [keys_mergeObj]
  exact List.subset_append_left _ _

theorem mergeObj_absorb (a b : JObj) (ha : (keys a).Nodup) :
    mergeObj a (mergeObj a b) = mergeObj a b := by
  set m := mergeObj a b with hm
  have hkeys_m : keys m = keys a ++ extraK (keys a) (keys b) := keys_mergeObj b a
  have hnodup_m : (keys m).Nodup := keysNodup_mergeObj b a ha
  have hE := extraK_nodup_disjoint (keys b) (keys a)
  refine jobj_ext (mergeObj a m) m ?_ (keysNodup_mergeObj m a ha) ?_
  · rw [keys_mergeObj, hkeys_m,
      extraK_append_covered (keys a) _ (keys a) (fun x hx => hx),
      extraK_of_disjoint _ (keys a) hE.1 hE.2]
  · intro k
    rw [jGet_mergeObj, jGet_reverse_of_nodup m k hnodup_m]
    cases h : jGet m k with
    | some v => simp
    | none =>
      have hka : k ∉ keys a := by
        intro hmem
        have : k ∈ keys m := keys_sub_mergeObj b a hmem
        exact ((jGet_eq_none_iff m k).mp h) this
      simp [(jGet_eq_none_iff a k).mpr hka]

/-! ### Lemmas for the idempotence of the body rewrite -/

theorem map_replace_eq_self (o : JObj) (k : String) (v : JVal)
    (hall : ∀ q ∈ o, q.1 = k → q.2 = v) :
    o.map (fun p => if p.1 = k then (k, v) else p) = o := by
  induction o with
  | nil => rfl
  | cons p t ih =>
    have htail : ∀ q ∈ t, q.1 = k → q.2 = v := fun q hq => hall q (by simp [hq])
    by_cases hp : p.1 = k
    · have hv : p.2 = v := hall p (by simp) hp
      have hfp : (if p.1 = k then (k, v) else p) = p := by
        rw [if_pos hp, ← hp, ← hv]
      rw [List.map_cons, hfp, ih htail]
    · have hfp : (if p.1 = k then (k, v) else p) = p := if_neg hp
      rw [List.map_cons, hfp, ih htail]

theorem setKey_mem_eq (o : JObj) (k : String) (v : JVal) :
    ∀ q ∈ setKey o k v, q.1 = k → q.2 = v := by
  unfold setKey
  by_cases h : hasKey o k
  · rw [if_pos h]
    intro q hq hqk
    obtain ⟨p, hp, rfl⟩ := List.mem_map.mp hq
    by_cases hpk : p.1 = k
    · simp [hpk]
    · simp only [if_neg hpk] at hqk
      exact absurd hqk hpk
  · rw [if_neg h]
    intro q hq hqk
    rcases List.mem_append.mp hq with h1 | h1
    · have hko : k ∉ keys o := fun hmm => h ((hasKey_iff o k).mpr hmm)
      exact absurd (hqk ▸ List.mem_map_of_mem Prod.fst h1) hko
    · rw [List.mem_singleton.mp h1]

theorem setKey_preserve_allVal (o : JObj) (k : String) (v : JVal)
    (k' : String) (v' : JVal) (hne : k ≠ k')
    (h : ∀ q ∈ o, q.1 = k → q.2 = v) :
    ∀ q ∈ setKey o k' v', q.1 = k → q.2 = v := by
  unfold setKey
  by_cases hk : hasKey o k'
  · rw [if_pos hk]
    intro q hq hqk
    obtain ⟨p, hp, rfl⟩ := List.mem_map.mp hq
    by_cases hpk : p.1 = k'
    · simp only [if_pos hpk] at hqk
      exact absurd hqk.symm hne
    · simp only [if_neg hpk] at hqk ⊢
      exact h p hp hqk
  · rw [if_neg hk]
    intro q hq hqk
    rcases List.mem_append.mp hq with h1 | h1
    · exact h q h1 hqk
    · rw [List.mem_singleton.mp h1] at hqk
      exact absurd hqk.symm hne

theorem setKey_eq_self (o : JObj) (k : String) (v : JVal)
    (hall : ∀ q ∈ o, q.1 = k → q.2 = v) (hk : hasKey o k = true) :
    setKey o k v = o := by
  unfold setKey
  rw [if_pos hk]
  exact map_replace_eq_self o k v hall

theorem forcedStream_true {o : JObj} (h : streamIsTrue o = true) :
    forcedStream o = o := by
  unfold forcedStream
  simp [h]

theorem forcedStream_false {o : JObj} (h : streamIsTrue o = false) :
    forcedStream o = setKey o "stream" (JVal.bool false) := by
  unfold forcedStream
  simp [h]

theorem streamIsTrue_eq_true_iff (o : JObj) :
    streamIsTrue o = true ↔ jGet o "stream" = some (JVal.bool true) := by
  unfold streamIsTrue
  cases h : jGet o "stream" with
  | none => simp
  | some v =>
    cases v with
    | bool b => cases b <;> simp
    | null => simp
    | num q => simp
    | str s => simp
    | arr l => simp
    | obj fs => simp

theorem userOptsSpread_of_merged (q s : JObj) :
    userOptsSpread (setKey q "options" (JVal.obj s)) = s := by
  unfold userOptsSpread
  rw [jGet_setKey_self]
  rfl

/-- A body of the shape the augmenter produces is a fixed point of the
augmenter, provided the stream-forcing step already leaves it alone. -/
theorem augmentBody_fixpoint (q s : JObj)
    (hstream :
      forcedStream (setKey q "options" (JVal.obj (mergeObj getOptimizedParams s)))
        = setKey q "options" (JVal.obj (mergeObj getOptimizedParams s))) :
    augmentBody (setKey q "options" (JVal.obj (mergeObj getOptimizedParams s)))
      = setKey q "options" (JVal.obj (mergeObj getOptimizedParams s)) := by
  have hd : (keys getOptimizedParams).Nodup := by decide
  unfold augmentBody
  rw [hstream, userOptsSpread_of_merged, mergeObj_absorb _ _ hd]
  exact setKey_eq_self _ "options" _ (setKey_mem_eq q "options" _)
    (hasKey_setKey_self q "options" _)

theorem jGet_forcedStream_ne (p : JObj) (k : String) (h : k ≠ "stream") :
    jGet (forcedStream p) k = jGet p k := by
  unfold forcedStream
  by_cases hs : streamIsTrue p
  · simp [hs]
  · have hs2 : streamIsTrue p = false := by simpa using hs
    simp [hs2, jGet_setKey_ne p "stream" (JVal.bool false) k h]

theorem userOptsSpread_eq (p u : JObj)
    (h : jGet p "options" = some (JVal.obj u)
      ∨ (jGet p "options" = none ∧ u = [])) :
    userOptsSpread p = u := by
  unfold userOptsSpread
  rcases h with h | ⟨h, rfl⟩
  · rw [h]
    rfl
  · rw [h]

theorem transformPayload_post_genchat (route : String) (payload : JObj)
    (h : isGenerateOrChat route = true) :
    transformPayload "POST" route payload = augmentBody payload := by
  unfold transformPayload
  rw [if_pos ⟨rfl, h⟩]

theorem transformPayload_skip (method route : String) (payload : JObj)
    (h : ¬(method = "POST" ∧ isGenerateOrChat route = true)) :
    transformPayload method route payload = payload := by
  unfold transformPayload
  rw [if_neg h]

theorem jGet_mergeObj_nodup (u a : JObj) (k : String)
    (hnodup : (keys u).Nodup) :
    jGet (mergeObj a u) k = orO (jGet u k) (jGet a k) := by
  rw [jGet_mergeObj, jGet_reverse_of_nodup u k hnodup]

/-! ### Claim theorems -/

/-- C1: for every POST request to a generation or chat path, the
forwarded body's `options` mapping is the shallow per-key merge of the
fixed default inference options with the caller's options: any key
present in the caller's options takes the caller's value, any key the
caller omits (including all keys when the caller sent no `options`)
takes the documented default, and in particular a caller-set
`options.temperature` is forwarded unchanged. -/
theorem claim_C1_options_merge (route : String) (payload u : JObj)
    (hroute : isGenerateOrChat route = true)
    (hopts : jGet payload "options" = some (JVal.obj u)
      ∨ (jGet payload "options" = none ∧ u = []))
    (hnodup : (keys u).Nodup) :
    jGet (transformPayload "POST" route payload) "options"
        = some (JVal.obj (mergeObj getOptimizedParams u))
    ∧ (∀ k v, jGet u k = some v →
        jGet (mergeObj getOptimizedParams u) k = some v)
    ∧ (∀ k, jGet u k = none →
        jGet (mergeObj getOptimizedParams u) k = jGet getOptimizedParams k)
    ∧ (∀ tv, jGet u "temperature" = some tv →
        jGet (mergeObj getOptimizedParams u) "temperature" = some tv) := by
  have hfs : jGet (forcedStream payload) "options" = jGet payload "options" :=
    jGet_forcedStream_ne payload "options" (by decide)
  have huser : userOptsSpread (forcedStream payload) = u :=
    userOptsSpread_eq _ u (by rw [hfs]; exact hopts)
  refine ⟨?_, ?_, ?_, ?_⟩
  · rw [transformPayload_post_genchat route payload hroute]
    unfold augmentBody
    rw [huser]
    exact jGet_setKey_self _ "options" _
  · intro k v hv
    rw [jGet_mergeObj_nodup u _ k hnodup, hv, orO_some]
  · intro k hv
    rw [jGet_mergeObj_nodup u _ k hnodup, hv, orO_none]
  · intro tv hv
    rw [jGet_mergeObj_nodup u _ "temperature" hnodup, hv, orO_some]

theorem claim_C1_options_merge_witness :
    isGenerateOrChat "/api/generate" = true
    ∧ jGet [("options", JVal.obj [("temperature", JVal.num 2)])] "options"
        = some (JVal.obj [("temperature", JVal.num 2)])
    ∧ (keys [("temperature", JVal.num 2)]).Nodup
    ∧ jGet (transformPayload "POST" "/api/generate"
          [("options", JVal.obj [("temperature", JVal.num 2)])]) "options"
        = some (JVal.obj (mergeObj getOptimizedParams [("temperature", JVal.num 2)]))
    ∧ jGet (mergeObj getOptimizedParams [("temperature", JVal.num 2)]) "temperature"
        = some (JVal.num 2)
    ∧ jGet (mergeObj getOptimizedParams [("temperature", JVal.num 2)]) "top_k"
        = some (JVal.num 40) :=
  ⟨rfl, rfl, by decide,
    (claim_C1_options_merge "/api/generate"
        [("options", JVal.obj [("temperature", JVal.num 2)])]
        [("temperature", JVal.num 2)] rfl (Or.inl rfl) (by decide)).1,
    (claim_C1_options_merge "/api/generate"
        [("options", JVal.obj [("temperature", JVal.num 2)])]
        [("temperature", JVal.num 2)] rfl (Or.inl rfl) (by decide)).2.2.2
      (JVal.num 2) rfl,
    rfl⟩

/-- C2: for every POST request to a generation or chat path, the
forwarded body's `stream` is left as `true` when the caller set it to
exactly the boolean `true`, and is forced to `false` whenever the field
is absent or anything other than `true`. -/
theorem claim_C2_stream_forced (route : String) (payload : JObj)
    (hroute : isGenerateOrChat route = true) :
    (jGet payload "stream" = some (JVal.bool true) →
        jGet (transformPayload "POST" route payload) "stream"
          = some (JVal.bool true))
    ∧ (jGet payload "stream" ≠ some (JVal.bool true) →
        jGet (transformPayload "POST" route payload) "stream"
          = some (JVal.bool false)) := by
  rw [transformPayload_post_genchat route payload hroute]
  have hb : jGet (augmentBody payload) "stream"
      = jGet (forcedStream payload) "stream" := by
    unfold augmentBody
    exact jGet_setKey_ne _ "options" _ "stream" (by decide)
  constructor
  · intro h
    have hs : streamIsTrue payload = true :=
      (streamIsTrue_eq_true_iff payload).mpr h
    rw [hb, forcedStream_true hs]
    exact h
  · intro h
    have hs : streamIsTrue payload = false := by
      rcases Bool.eq_false_or_eq_true (streamIsTrue payload) with h1 | h1
      · exact absurd ((streamIsTrue_eq_true_iff payload).mp h1) h
      · exact h1
    rw [hb, forcedStream_false hs]
    exact jGet_setKey_self payload "stream" _

theorem claim_C2_stream_forced_witness :
    isGenerateOrChat "/api/chat" = true
    ∧ (jGet ([] : JObj) "stream" ≠ some (JVal.bool true))
    ∧ jGet (transformPayload "POST" "/api/chat" []) "stream"
        = some (JVal.bool false)
    ∧ jGet [("stream", JVal.bool true)] "stream" = some (JVal.bool true)
    ∧ jGet (transformPayload "POST" "/api/chat" [("stream", JVal.bool true)]) "stream"
        = some (JVal.bool true) :=
  ⟨rfl, by simp [jGet], (claim_C2_stream_forced "/api/chat" [] rfl).2 (by simp [jGet]),
    rfl, (claim_C2_stream_forced "/api/chat" [("stream", JVal.bool true)] rfl).1 rfl⟩

/-- C3: a request to a protected route whose Authorization header is
absent or differs from the literal `Bearer <configured-token>` is
answered 401 with the error payload and the proxy handler (the only
place a backend call happens) is never invoked; a request with the exact
matching header is passed through to the handler unchanged. -/
theorem claim_C3_auth_gate (token : String) (r : InboundReq) :
    (r.authorization ≠ some ("Bearer " ++ token) →
        dispatchProtected token r = Dispatch.rejected unauthorizedResponse
        ∧ unauthorizedResponse.status = 401
        ∧ backendCallsOf (dispatchProtected token r) = 0)
    ∧ (r.authorization = some ("Bearer " ++ token) →
        dispatchProtected token r = Dispatch.handled r) := by
  constructor
  · intro h
    have hv : validateToken token r.authorization = some unauthorizedResponse := by
      unfold validateToken
      rw [if_pos (Or.inr h)]
    refine ⟨?_, rfl, ?_⟩ <;> unfold dispatchProtected <;> rw [hv]
    rfl
  · intro h
    have hne : "Bearer " ++ token ≠ "" := by
      intro hh
      have hlen : ("Bearer " ++ token).length = 0 := by rw [hh]; rfl
      rw [String.length_append] at hlen
      have h7 : "Bearer ".length = 7 := rfl
      omega
    have hfalsy : strFalsy r.authorization = false := by
      rw [h]
      show (if ("Bearer " ++ token) = "" then true else false) = false
      rw [if_neg hne]
    have hv : validateToken token r.authorization = none := by
      unfold validateToken
      rw [if_neg]
      rintro (h1 | h2)
      · rw [hfalsy] at h1
        exact Bool.false_ne_true h1
      · exact h2 h
    unfold dispatchProtected
    rw [hv]

theorem claim_C3_auth_gate_witness :
    ((none : Option String) ≠ some ("Bearer " ++ "secret-token"))
    ∧ dispatchProtected "secret-token"
        { method := "POST", path := "/api/generate", query := "",
          authorization := none, body := some [] }
        = Dispatch.rejected unauthorizedResponse
    ∧ (some "Bearer secret-token" = some ("Bearer " ++ "secret-token"))
    ∧ dispatchProtected "secret-token"
        { method := "POST", path := "/api/generate", query := "",
          authorization := some "Bearer secret-token", body := some [] }
        = Dispatch.handled
            { method := "POST", path := "/api/generate", query := "",
              authorization := some "Bearer secret-token", body := some [] } :=
  ⟨by simp,
    (claim_C3_auth_gate "secret-token"
      { method := "POST", path := "/api/generate", query := "",
        authorization := none, body := some [] }).1 (by simp) |>.1,
    rfl,
    (claim_C3_auth_gate "secret-token"
      { method := "POST", path := "/api/generate", query := "",
        authorization := some "Bearer secret-token", body := some [] }).2 rfl⟩

/-- C4: the failure mapping of the proxy is exhaustive and retry-free:
exactly one backend attempt is made; a backend non-2xx response is
propagated with its exact status and body; a refused connection yields
the structured 503 whose message names the expected backend address
`localhost:11434`; and any other failure yields a 500 whose message
carries the underlying failure description. -/
theorem claim_C4_failure_mapping (oracle : Nat → BackendResult) :
    (runProxy oracle).2 = 1
    ∧ (∀ s d, oracle 0 = BackendResult.httpError s d →
        (runProxy oracle).1 = ⟨s, d⟩)
    ∧ (oracle 0 = BackendResult.connRefused →
        (runProxy oracle).1.status = 503
        ∧ (runProxy oracle).1.body
            = JVal.obj
                [ ("error", JVal.str "Ollama service unavailable")
                , ("message",
                    JVal.str "Make sure Ollama is running on localhost:11434") ]
        ∧ containsSub "Make sure Ollama is running on localhost:11434"
            "localhost:11434" = true)
    ∧ (∀ msg, oracle 0 = BackendResult.otherFailure msg →
        (runProxy oracle).1.status = 500
        ∧ (runProxy oracle).1.body
            = JVal.obj
                [ ("error", JVal.str "Internal server error")
                , ("message", JVal.str msg) ]) := by
  refine ⟨rfl, ?_, ?_, ?_⟩
  · intro s d h
    show handleBackendResult (oracle 0) = _
    rw [h]
    rfl
  · intro h
    have hr : handleBackendResult (oracle 0)
        = handleBackendResult BackendResult.connRefused := by rw [h]
    exact ⟨congrArg Response.status hr, congrArg Response.body hr, rfl⟩
  · intro msg h
    have hr : handleBackendResult (oracle 0)
        = handleBackendResult (BackendResult.otherFailure msg) := by rw [h]
    exact ⟨congrArg Response.status hr, congrArg Response.body hr⟩

theorem claim_C4_failure_mapping_witness :
    ((fun _ : Nat => BackendResult.httpError 404 (JVal.obj [])) 0
        = BackendResult.httpError 404 (JVal.obj []))
    ∧ (runProxy (fun _ => BackendResult.httpError 404 (JVal.obj []))).1
        = ⟨404, JVal.obj []⟩
    ∧ ((fun _ : Nat => BackendResult.connRefused) 0 = BackendResult.connRefused)
    ∧ (runProxy (fun _ => BackendResult.connRefused)).1.status = 503 :=
  ⟨rfl,
    (claim_C4_failure_mapping (fun _ => BackendResult.httpError 404 (JVal.obj []))).2.1
      404 (JVal.obj []) rfl,
    rfl,
    ((claim_C4_failure_mapping (fun _ => BackendResult.connRefused)).2.2.1 rfl).1⟩
/-- C5 (amended): for every proxied request the outbound method mirrors
the inbound one, the target URL is the backend base URL concatenated
with the inbound pathname (the query string is dropped, not preserved),
the Content-Type header is always JSON, and the possibly augmented body
is attached exactly for non-GET/HEAD methods. -/
theorem claim_C5_forwarding (r : InboundReq) :
    (buildOutbound r).method = r.method
    ∧ (buildOutbound r).url = OLLAMA_URL ++ r.path
    ∧ (buildOutbound r).contentType = "application/json"
    ∧ (r.method ≠ "GET" ∧ r.method ≠ "HEAD" →
        (buildOutbound r).data = some (effectivePayload r))
    ∧ (r.method = "GET" ∨ r.method = "HEAD" →
        (buildOutbound r).data = none) := by
  refine ⟨rfl, rfl, rfl, ?_, ?_⟩
  · intro h
    show (if r.method ≠ "GET" ∧ r.method ≠ "HEAD"
        then some (effectivePayload r) else none) = some (effectivePayload r)
    rw [if_pos h]
  · intro h
    show (if r.method ≠ "GET" ∧ r.method ≠ "HEAD"
        then some (effectivePayload r) else none) = none
    rw [if_neg]
    rintro ⟨h1, h2⟩
    rcases h with h | h
    · exact h1 h
    · exact h2 h

theorem claim_C5_forwarding_witness :
    (("POST" : String) ≠ "GET" ∧ ("POST" : String) ≠ "HEAD")
    ∧ (buildOutbound
          { method := "POST", path := "/api/generate", query := "",
            authorization := none, body := some [] }).data
        = some (effectivePayload
            { method := "POST", path := "/api/generate", query := "",
              authorization := none, body := some [] })
    ∧ (buildOutbound
          { method := "POST", path := "/api/generate", query := "",
            authorization := none, body := some [] }).url
        = "http://localhost:11434/api/generate" :=
  ⟨by decide,
    (claim_C5_forwarding
        { method := "POST", path := "/api/generate", query := "",
          authorization := none, body := some [] }).2.2.2.1 (by decide),
    rfl⟩

/-- C5, refuting the claim as stated: the code targets
`OLLAMA_URL + req.path`, and Express's `req.path` excludes the query
string, so a request carrying a query string is not forwarded to the
original path-with-query. -/
theorem claim_C5_query_dropped :
    (buildOutbound
        { method := "GET", path := "/api/tags", query := "insecure=true",
          authorization := none, body := none }).url
      ≠ OLLAMA_URL ++ originalUrl
          { method := "GET", path := "/api/tags", query := "insecure=true",
            authorization := none, body := none } := by
  decide

/-- C6: a POST request to a route that is not a generation or chat path
is forwarded with its body exactly as received: the options merge never
applies to it. -/
theorem claim_C6_other_post_untouched (r : InboundReq) (b : JObj)
    (hm : r.method = "POST") (hb : r.body = some b)
    (h1 : containsSub r.path "/generate" = false)
    (h2 : containsSub r.path "/chat" = false) :
    effectivePayload r = b ∧ (buildOutbound r).data = some b := by
  have hreq : requestPayload r = b := by
    unfold requestPayload
    rw [hm, hb]
    rfl
  have hskip : ¬("POST" = "POST" ∧ isGenerateOrChat r.path = true) := by
    rintro ⟨-, hgc⟩
    unfold isGenerateOrChat at hgc
    rw [h1, h2] at hgc
    exact Bool.false_ne_true hgc
  have heff : effectivePayload r = b := by
    unfold effectivePayload
    rw [hm, hreq, transformPayload_skip "POST" r.path b hskip]
  refine ⟨heff, ?_⟩
  show (if r.method ≠ "GET" ∧ r.method ≠ "HEAD"
      then some (effectivePayload r) else none) = some b
  rw [if_pos ⟨by rw [hm]; decide, by rw [hm]; decide⟩, heff]

theorem claim_C6_other_post_untouched_witness :
    (({ method := "POST", path := "/api/pull", query := "",
        authorization := none,
        body := some [("name", JVal.str "mistral:7b")] } : InboundReq).method
      = "POST")
    ∧ containsSub "/api/pull" "/generate" = false
    ∧ containsSub "/api/pull" "/chat" = false
    ∧ (buildOutbound
          { method := "POST", path := "/api/pull", query := "",
            authorization := none,
            body := some [("name", JVal.str "mistral:7b")] }).data
        = some [("name", JVal.str "mistral:7b")] :=
  ⟨rfl, rfl, rfl,
    (claim_C6_other_post_untouched
        { method := "POST", path := "/api/pull", query := "",
          authorization := none, body := some [("name", JVal.str "mistral:7b")] }
        [("name", JVal.str "mistral:7b")] rfl rfl rfl rfl).2⟩

/-- C7: when the startup probes succeed but the backend's model listing
has no entry equal to the configured model name or starting with that
name followed by the version separator, warmup reports failure, the
keepalive loop never starts, and the HTTP server is still listening;
the name check is exactly equality-or-versioned-tag matching. -/
theorem claim_C7_warmup_missing_model (env : BackendEnv)
    (hv : env.versionOk = true) (ht : env.tagsOk = true)
    (hm : modelExists env.tags = false) :
    warmupModel env = false
    ∧ (startServer env).keepaliveActive = false
    ∧ (startServer env).listening = true
    ∧ (∀ ms : List String, modelExists ms = true ↔
        ∃ name ∈ ms, name = MODEL_NAME
          ∨ (MODEL_NAME ++ ":").data.isPrefixOf name.data = true) := by
  have hw : warmupModel env = false := by
    unfold warmupModel
    rw [hv, ht, hm]
    rfl
  refine ⟨hw, hw, rfl, ?_⟩
  intro ms
  unfold modelExists
  rw [List.any_eq_true]
  constructor
  · rintro ⟨name, hmem, hp⟩
    simp only [Bool.or_eq_true, decide_eq_true_eq] at hp
    exact ⟨name, hmem, hp⟩
  · rintro ⟨name, hmem, hp⟩
    refine ⟨name, hmem, ?_⟩
    simp only [Bool.or_eq_true, decide_eq_true_eq]
    exact hp

theorem claim_C7_warmup_missing_model_witness :
    (⟨true, true, ["llama3:8b-instruct"], true⟩ : BackendEnv).versionOk = true
    ∧ modelExists ["llama3:8b-instruct"] = false
    ∧ (startServer ⟨true, true, ["llama3:8b-instruct"], true⟩).keepaliveActive
        = false
    ∧ (startServer ⟨true, true, ["llama3:8b-instruct"], true⟩).listening = true :=
  ⟨rfl, rfl,
    (claim_C7_warmup_missing_model ⟨true, true, ["llama3:8b-instruct"], true⟩
      rfl rfl rfl).2.1,
    (claim_C7_warmup_missing_model ⟨true, true, ["llama3:8b-instruct"], true⟩
      rfl rfl rfl).2.2.1⟩

theorem runKeepalive_foldl (outcomes : List Bool) : ∀ st : KeepaliveState,
    (outcomes.foldl keepaliveTick st).timerActive = st.timerActive
    ∧ (outcomes.foldl keepaliveTick st).crashed = st.crashed
    ∧ (outcomes.foldl keepaliveTick st).sent
        = st.sent ++ outcomes.map (fun _ => keepalivePayload) := by
  induction outcomes with
  | nil => intro st; simp
  | cons o t ih =>
    intro st
    simp only [List.foldl_cons, List.map_cons]
    refine ⟨(ih _).1, (ih _).2.1, ?_⟩
    rw [(ih _).2.2]
    simp [keepaliveTick]

/-- C8: however the individual pings turn out, after any finite run of
keepalive ticks the interval timer is still scheduled and the process
has not crashed, one minimal generation request was issued per tick, and
that request caps the output to a single token via `max_tokens`. -/
theorem claim_C8_keepalive_loop (outcomes : List Bool) :
    (runKeepalive outcomes).timerActive = true
    ∧ (runKeepalive outcomes).crashed = false
    ∧ (runKeepalive outcomes).sent = outcomes.map (fun _ => keepalivePayload)
    ∧ jGet keepalivePayload "options"
        = some (JVal.obj (mergeObj getOptimizedParams
            [("max_tokens", JVal.num 1)]))
    ∧ jGet (mergeObj getOptimizedParams [("max_tokens", JVal.num 1)]) "max_tokens"
        = some (JVal.num 1) := by
  have h := runKeepalive_foldl outcomes ⟨true, false, []⟩
  exact ⟨h.1, h.2.1, by simpa using h.2.2, rfl, rfl⟩

/-- C9: the stream-forcing plus options-merge rewrite is idempotent on
every body; any first application leaves a boolean `stream` field and an
`options` object containing every default key, which a second
application keeps fixed. -/
theorem claim_C9_augment_idempotent (p : JObj) :
    augmentBody (augmentBody p) = augmentBody p
    ∧ (∃ b : Bool, jGet (augmentBody p) "stream" = some (JVal.bool b))
    ∧ (∃ opts : JObj, jGet (augmentBody p) "options" = some (JVal.obj opts)
        ∧ ∀ k ∈ keys getOptimizedParams, k ∈ keys opts) := by
  have hB : augmentBody p
      = setKey (forcedStream p) "options"
          (JVal.obj (mergeObj getOptimizedParams
            (userOptsSpread (forcedStream p)))) := rfl
  have hgs : jGet (augmentBody p) "stream" = jGet (forcedStream p) "stream" := by
    rw [hB]
    exact jGet_setKey_ne _ "options" _ "stream" (by decide)
  have hstream_cases :
      (jGet (forcedStream p) "stream" = some (JVal.bool true)
        ∧ streamIsTrue (augmentBody p) = true)
      ∨ (jGet (forcedStream p) "stream" = some (JVal.bool false)
          ∧ streamIsTrue (augmentBody p) = false
          ∧ setKey (augmentBody p) "stream" (JVal.bool false) = augmentBody p) := by
    by_cases hs : streamIsTrue p = true
    · left
      have hfp : forcedStream p = p := forcedStream_true hs
      have hj : jGet (forcedStream p) "stream" = some (JVal.bool true) := by
        rw [hfp]
        exact (streamIsTrue_eq_true_iff p).mp hs
      exact ⟨hj, (streamIsTrue_eq_true_iff _).mpr (by rw [hgs]; exact hj)⟩
    · right
      have hs2 : streamIsTrue p = false := by simpa using hs
      have hfp : forcedStream p = setKey p "stream" (JVal.bool false) :=
        forcedStream_false hs2
      have hj : jGet (forcedStream p) "stream" = some (JVal.bool false) := by
        rw [hfp]
        exact jGet_setKey_self p "stream" _
      have hsf : streamIsTrue (augmentBody p) = false := by
        unfold streamIsTrue
        rw [hgs, hj]
      refine ⟨hj, hsf, ?_⟩
      apply setKey_eq_self
      · rw [hB]
        apply setKey_preserve_allVal _ "stream" (JVal.bool false) "options" _
          (by decide)
        rw [hfp]
        exact setKey_mem_eq p "stream" (JVal.bool false)
      · rw [hB, hasKey_setKey_ne _ "options" _ "stream" (by decide), hfp]
        exact hasKey_setKey_self p "stream" (JVal.bool false)
  have hforced : forcedStream (augmentBody p) = augmentBody p := by
    rcases hstream_cases with ⟨-, hst⟩ | ⟨-, hst, hset⟩
    · exact forcedStream_true hst
    · rw [forcedStream_false hst]
      exact hset
  refine ⟨?_, ?_, ?_⟩
  · rw [hB]
    apply augmentBody_fixpoint
    rw [← hB]
    exact hforced
  · rcases hstream_cases with ⟨hj, -⟩ | ⟨hj, -, -⟩
    · exact ⟨true, by rw [hgs]; exact hj⟩
    · exact ⟨false, by rw [hgs]; exact hj⟩
  · refine ⟨mergeObj getOptimizedParams (userOptsSpread (forcedStream p)), ?_, ?_⟩
    · rw [hB]
      exact jGet_setKey_self _ "options" _
    · intro k hk
      exact keys_sub_mergeObj (userOptsSpread (forcedStream p))
        getOptimizedParams hk

/-- C10: the legacy `/health` handler answers 200 `healthy` with exactly
the timestamp and backend URL while performing zero backend requests (so
it reports healthy even with the backend down), whereas the model-aware
variant probes the backend and answers 503 with an `error` field when a
probe fails. -/
theorem claim_C10_health_variants (now : String) (env : HealthEnv) :
    (legacyHealth now).1.status = 200
    ∧ (legacyHealth now).1.body
        = JVal.obj
            [ ("status", JVal.str "healthy")
            , ("timestamp", JVal.str now)
            , ("ollama_url", JVal.str OLLAMA_URL) ]
    ∧ (legacyHealth now).2 = 0
    ∧ (env.versionOk = false ∨ env.psOk = false →
        (modelAwareHealth env now).1.status = 503
        ∧ (modelAwareHealth env now).1.body
            = JVal.obj
                [ ("status", JVal.str "unhealthy")
                , ("timestamp", JVal.str now)
                , ("error", JVal.str env.errMsg) ]
        ∧ 1 ≤ (modelAwareHealth env now).2) := by
  refine ⟨rfl, rfl, rfl, ?_⟩
  intro h
  unfold modelAwareHealth
  by_cases hv : env.versionOk = false
  · rw [if_pos hv]
    exact ⟨rfl, rfl, Nat.le_refl 1⟩
  · have hps : env.psOk = false := by
      rcases h with h | h
      · exact absurd h hv
      · exact h
    rw [if_neg hv, if_pos hps]
    exact ⟨rfl, rfl, Nat.le_succ 1⟩

theorem claim_C10_health_variants_witness :
    ((⟨false, "0.1.0", true, [], "connect ECONNREFUSED"⟩ : HealthEnv).versionOk
        = false
      ∨ (⟨false, "0.1.0", true, [], "connect ECONNREFUSED"⟩ : HealthEnv).psOk
        = false)
    ∧ (modelAwareHealth ⟨false, "0.1.0", true, [], "connect ECONNREFUSED"⟩
        "2026-01-01").1.status = 503
    ∧ (legacyHealth "2026-01-01").1.status = 200
    ∧ (legacyHealth "2026-01-01").2 = 0 :=
  ⟨Or.inl rfl,
    ((claim_C10_health_variants "2026-01-01"
        ⟨false, "0.1.0", true, [], "connect ECONNREFUSED"⟩).2.2.2
      (Or.inl rfl)).1,
    (claim_C10_health_variants "2026-01-01"
        ⟨false, "0.1.0", true, [], "connect ECONNREFUSED"⟩).1,
    (claim_C10_health_variants "2026-01-01"
        ⟨false, "0.1.0", true, [], "connect ECONNREFUSED"⟩).2.2.1⟩

end OllamaProxy
